import Mathlib

/-!
Verification development for the load_tester HTTP load generator
(src/main.rs, src/config/cli.rs, src/config/multi.rs).

The pure algorithmic parts of the program are shallowly embedded:

* the target selector (the arms of MultiUrlTester::get_next_config),
* the statistics aggregator (TestStats::new / add_result / calculate_final,
  and the result-collection loops of simulate_burst / simulate_rps /
  simulate_multiple_urls),
* the user-id schedule and tick pacing of simulate_rps,
* the body codec (parse_body with its JSON, form and base64 probes, and
  prepare_dynamic_body).

Rust usize / u64 counters are modelled as Nat (debug Rust panics on
overflow, so in-range executions agree); Duration values are modelled as
their exact nanosecond count (a Nat); fallible operations (indexing with a
possibly-panicking subtraction or a modulo by zero) return Option.
-/

/-! ### Target selector: MultiUrlTester::get_next_config (src/main.rs:33-65)

The Rust function matches on the distribution policy.  The two
deterministic arms (RoundRobin and Sequential) are embedded here; the
Random and Weighted arms sample the thread-local RNG and are not needed by
any claim.  The pool element type is abstract, mirroring
`configs: Vec<RequestConfig>` without committing to the descriptor's body
representation. -/

/-- Embeds the `UrlDistribution::Sequential` arm (src/main.rs:43-46):
`let url_index = (user_id - 1) % self.configs.len(); &self.configs[url_index]`.
The usize subtraction `user_id - 1` panics (debug build) when `user_id = 0`,
and `% 0` panics when the pool is empty; both panics are modelled as
`Option.none`. -/
def get_next_config_sequential {α : Type} (configs : List α) (user_id : Nat) : Option α :=
  if configs.length = 0 then Option.none
  else
    match user_id with
    | 0 => Option.none
    | u + 1 => configs.get? (u % configs.length)

/-- Embeds the `UrlDistribution::RoundRobin` arm (src/main.rs:35-38):
`let index = self.current_index.fetch_add(1, Ordering::SeqCst);`
`&self.configs[index % self.configs.len()]`.
The atomic counter is passed as explicit state; `fetch_add` returns the
pre-increment value, which is the consumed index.  `% 0` on an empty pool
panics, modelled as `Option.none`. -/
def get_next_config_roundRobin {α : Type} (configs : List α) (counter : Nat) :
    Option (α × Nat) :=
  if configs.length = 0 then Option.none
  else (configs.get? (counter % configs.length)).map (fun c => (c, counter + 1))

/-- Pre-increment counter values consumed by `n` successive
`fetch_add(1, SeqCst)` calls on `current_index`, starting from `counter`
(src/main.rs:36). -/
def roundRobinConsumed : Nat → Nat → List Nat
  | 0, _ => []
  | n + 1, counter => counter :: roundRobinConsumed n (counter + 1)

/-- Pool indices selected by `n` successive RoundRobin selections starting
from counter state `counter`, against a pool of `len` descriptors
(src/main.rs:36-37). -/
def roundRobinIndices (len n counter : Nat) : List Nat :=
  (roundRobinConsumed n counter).map (fun c => c % len)

/-- The virtual-user ids `1..=users` spawned by simulate_multiple_urls
(src/main.rs:828-838); each task calls `tester.get_next_config(user_id)`. -/
def multiUrlUserIds (users : Nat) : List Nat := List.range' 1 users

theorem roundRobinConsumed_eq_range' (n : Nat) :
    ∀ counter, roundRobinConsumed n counter = List.range' counter n := by
  induction n with
  | zero => intro counter; rfl
  | succ m ih =>
    intro counter
    rw [roundRobinConsumed, ih, List.range'_succ]

theorem countP_mod_range (len j : Nat) (hlen : 0 < len) (hj : j < len) :
    ∀ N, (List.range N).countP (fun k => k % len == j)
      = N / len + (if j < N % len then 1 else 0) := by
  intro N
  induction N with
  | zero => simp
  | succ n ih =>
    have hrs : List.range (n + 1) = List.range n ++ [n] := by
      simpa using List.range_succ n
    rw [hrs, List.countP_append, ih]
    have hm : n % len < len := Nat.mod_lt n hlen
    have hd : len * (n / len) + n % len = n := Nat.div_add_mod n len
    rcases Nat.eq_or_lt_of_le (Nat.succ_le_of_lt hm) with hcase | hcase
    · -- n % len + 1 = len: the counter wraps, quotient grows
      have e : n + 1 = len * (n / len + 1) := by
        rw [Nat.mul_succ]
        omega
      have h1 : (n + 1) / len = n / len + 1 := by
        rw [e, Nat.mul_div_cancel_left _ hlen]
      have h2 : (n + 1) % len = 0 := by
        rw [e, Nat.mul_mod_right]
      rw [h1, h2]
      simp only [List.countP_cons, List.countP_nil, beq_iff_eq]
      split_ifs <;> omega
    · -- n % len + 1 < len: quotient unchanged, remainder grows
      have e : n + 1 = (n % len + 1) + len * (n / len) := by omega
      have h1 : (n + 1) / len = n / len := by
        rw [e, Nat.add_mul_div_left _ _ hlen, Nat.div_eq_of_lt hcase, Nat.zero_add]
      have h2 : (n + 1) % len = n % len + 1 := by
        rw [e, Nat.add_mul_mod_self_left, Nat.mod_eq_of_lt hcase]
      rw [h1, h2]
      simp only [List.countP_cons, List.countP_nil, beq_iff_eq]
      split_ifs <;> omega

/-- C7: Sequential selection returns the descriptor at index
(userIndex − 1) mod pool.length for 1-based userIndex, for every non-empty
pool; with a pool of 3 descriptors and userIndex = 1..9 the selected
descriptors are those at indices [0,1,2,0,1,2,0,1,2]. -/
theorem C7_sequential_selection {α : Type} (pool : List α) (user_id : Nat)
    (hpool : pool ≠ []) (huser : 1 ≤ user_id) :
    get_next_config_sequential pool user_id = pool.get? ((user_id - 1) % pool.length)
    ∧ (List.range' 1 9).map (fun u => get_next_config_sequential (List.range 3) u)
      = [some 0, some 1, some 2, some 0, some 1, some 2, some 0, some 1, some 2] := by
  constructor
  · have hlen : pool.length ≠ 0 := by
      simpa [List.length_eq_zero] using hpool
    match user_id, huser with
    | u + 1, _ =>
      simp [get_next_config_sequential, hlen]
  · decide

theorem C7_sequential_selection_witness :
    get_next_config_sequential [10, 20, 30] 5 = ([10, 20, 30] : List Nat).get? ((5 - 1) % 3)
    ∧ (List.range' 1 9).map (fun u => get_next_config_sequential (List.range 3) u)
      = [some 0, some 1, some 2, some 0, some 1, some 2, some 0, some 1, some 2] := by
  have h := C7_sequential_selection [10, 20, 30] 5 (by decide) (by decide)
  exact ⟨h.1, h.2⟩

/-- C8: RoundRobin selection consumes the pre-increment counter value and
selects index = counter mod pool.length; starting from counter 0, N
sequential selections visit pool index j exactly ⌊N / poolSize⌋ or
⌈N / poolSize⌉ times, and no two selections consume the same counter
value. -/
theorem C8_round_robin_visits (len N j : Nat) (hlen : 0 < len) (hj : j < len) :
    (∀ pool : List Nat, pool.length = len → ∀ counter,
        get_next_config_roundRobin pool counter
          = (pool.get? (counter % len)).map (fun c => (c, counter + 1)))
    ∧ (roundRobinConsumed N 0).Nodup
    ∧ ((roundRobinIndices len N 0).count j = N / len
        ∨ (roundRobinIndices len N 0).count j = (N + len - 1) / len) := by
  refine ⟨?_, ?_, ?_⟩
  · intro pool hp counter
    rw [get_next_config_roundRobin, hp, if_neg (by omega : ¬ len = 0)]
  · rw [roundRobinConsumed_eq_range']
    exact List.nodup_range' 0 N
  · have hc : (roundRobinIndices len N 0).count j
        = N / len + (if j < N % len then 1 else 0) := by
      rw [roundRobinIndices, roundRobinConsumed_eq_range',
        show List.range' 0 N = List.range N from (List.range_eq_range' N).symm]
      rw [List.count_eq_countP, List.countP_map]
      rw [show ((fun c => c == j) ∘ fun c => c % len) = (fun k => k % len == j) from rfl]
      exact countP_mod_range len j hlen hj N
    by_cases hrem : j < N % len
    · right
      rw [hc, if_pos hrem]
      -- N % len ≥ 1, so ⌈N / len⌉ = N / len + 1
      have hd : len * (N / len) + N % len = N := Nat.div_add_mod N len
      have hm : N % len < len := Nat.mod_lt N hlen
      have hr1 : 1 ≤ N % len := by omega
      have e : N + len - 1 = (N % len - 1) + len * (N / len + 1) := by
        rw [Nat.mul_succ]
        omega
      rw [e, Nat.add_mul_div_left _ _ hlen,
        Nat.div_eq_of_lt (by omega : N % len - 1 < len), Nat.zero_add]
    · left
      rw [hc, if_neg hrem, Nat.add_zero]

theorem C8_round_robin_visits_witness :
    0 < 3 ∧ 1 < 3
    ∧ ((roundRobinConsumed 7 0).Nodup
        ∧ ((roundRobinIndices 3 7 0).count 1 = 7 / 3
            ∨ (roundRobinIndices 3 7 0).count 1 = (7 + 3 - 1) / 3)) := by
  have h := C8_round_robin_visits 3 7 1 (by decide) (by decide)
  exact ⟨by decide, by decide, h.2.1, h.2.2⟩

/-- C10: the Sequential index computation is well defined exactly for
userIndex ≥ 1 on a non-empty pool: userIndex = 0 makes the usize
subtraction `user_id - 1` underflow (a debug-build panic, modelled as
`Option.none`), while every userIndex ≥ 1 selects some descriptor; the
engine's caller simulate_multiple_urls spawns userIds 1..=users, which are
all ≥ 1, keeping the underflow branch unreachable. -/
theorem C10_sequential_zero_underflow {α : Type} (pool : List α) (hpool : pool ≠ []) :
    get_next_config_sequential pool 0 = Option.none
    ∧ (∀ user_id, 1 ≤ user_id → (get_next_config_sequential pool user_id).isSome = true)
    ∧ (∀ users, ∀ id ∈ multiUrlUserIds users, 1 ≤ id)
    ∧ (∀ users, ∀ id ∈ multiUrlUserIds users,
        (get_next_config_sequential pool id).isSome = true) := by
  have hlen : pool.length ≠ 0 := by
    simpa [List.length_eq_zero] using hpool
  have hmem : ∀ users, ∀ id ∈ multiUrlUserIds users, 1 ≤ id := by
    intro users id hid
    have h := List.mem_range'_1.mp hid
    exact h.1
  have hsome : ∀ user_id, 1 ≤ user_id →
      (get_next_config_sequential pool user_id).isSome = true := by
    intro user_id huser
    match user_id, huser with
    | u + 1, _ =>
      have hidx : u % pool.length < pool.length :=
        Nat.mod_lt u (Nat.pos_of_ne_zero hlen)
      simp [get_next_config_sequential, hlen, List.getElem?_eq_getElem hidx]
  refine ⟨?_, hsome, hmem, ?_⟩
  · simp [get_next_config_sequential, hlen]
  · intro users id hid
    exact hsome id (hmem users id hid)

theorem C10_sequential_zero_underflow_witness :
    get_next_config_sequential ["a", "b", "c"] 0 = Option.none
    ∧ (get_next_config_sequential ["a", "b", "c"] 1).isSome = true
    ∧ 1 ≤ 3
    ∧ (get_next_config_sequential ["a", "b", "c"] 3).isSome = true := by
  have h := C10_sequential_zero_underflow ["a", "b", "c"] (by decide)
  exact ⟨h.1, h.2.1 1 (by decide), h.2.2.1 5 3 (by decide), h.2.2.2 5 3 (by decide)⟩

/-! ### Stats aggregator: TestStats (src/main.rs:330-409)

Durations are exact nanosecond counts.  `status_codes: HashMap<u16, usize>`
is modelled as a total count function (absent key = 0, matching
`entry(status).or_insert(0)`). -/

/-- Embeds RequestResult (src/main.rs:319-328); `duration` is the elapsed
time in nanoseconds. -/
structure RequestResult where
  user_id : Nat
  success : Bool
  duration : Nat
  status_code : Option Nat
  error : Option String
  url : String

/-- Embeds TestStats (src/main.rs:331-341); duration fields in
nanoseconds. -/
@[ext]
structure TestStats where
  total_requests : Nat
  successful : Nat
  failed : Nat
  min_duration : Nat
  max_duration : Nat
  total_duration : Nat
  avg_duration : Nat
  status_codes : Nat → Nat

/-- Embeds TestStats::new (src/main.rs:344-350): min_duration starts at
Duration::from_secs(u64::MAX) = 2^64 - 1 seconds, i.e.
18446744073709551615000000000 ns; everything else is Default (zero /
empty map). -/
def TestStats.new : TestStats :=
  { total_requests := 0
    successful := 0
    failed := 0
    min_duration := 18446744073709551615 * 1000000000
    max_duration := 0
    total_duration := 0
    avg_duration := 0
    status_codes := fun _ => 0 }

/-- Embeds TestStats::add_result (src/main.rs:352-373), preserving the
update order of the source. -/
def TestStats.add_result (s : TestStats) (result : RequestResult) : TestStats :=
  let s1 : TestStats := { s with total_requests := s.total_requests + 1 }
  if result.success then
    let s2 : TestStats := { s1 with successful := s1.successful + 1 }
    let s3 : TestStats :=
      match result.status_code with
      | some status =>
        { s2 with status_codes :=
            fun c => if c = status then s2.status_codes c + 1 else s2.status_codes c }
      | Option.none => s2
    let s4 : TestStats := { s3 with total_duration := s3.total_duration + result.duration }
    let s5 : TestStats :=
      if result.duration < s4.min_duration then
        { s4 with min_duration := result.duration }
      else s4
    let s6 : TestStats :=
      if result.duration > s5.max_duration then
        { s5 with max_duration := result.duration }
      else s5
    s6
  else
    { s1 with failed := s1.failed + 1 }

/-- Embeds TestStats::calculate_final (src/main.rs:375-379):
`self.avg_duration = self.total_duration / self.successful as u32`.
The usize→u32 cast truncates, so the divisor is successful mod 2^32; when
that truncated divisor is zero (successful a positive multiple of 2^32)
the `Duration / u32` division panics, modelled as `Option.none`, like the
other modelled panics in this file. -/
def TestStats.calculate_final (s : TestStats) : Option TestStats :=
  if s.successful > 0 then
    if s.successful % 4294967296 = 0 then Option.none
    else some { s with avg_duration := s.total_duration / (s.successful % 4294967296) }
  else some s

/-- Folding a list of joined request outcomes into the accumulator, the
common core of the three result-collection loops. -/
def foldResults (results : List RequestResult) (s : TestStats) : TestStats :=
  results.foldl TestStats.add_result s

/-- Result-processing loop of simulate_burst (src/main.rs:605-615) and
simulate_multiple_urls (src/main.rs:847-857): a joined Ok(result) is
folded, a join error (`Err(e)`, `Option.none` here) is only logged. -/
def processBurstResults (results : List (Option RequestResult)) (s : TestStats) : TestStats :=
  results.foldl
    (fun acc r =>
      match r with
      | some request_result => acc.add_result request_result
      | Option.none => acc)
    s

/-- Result-processing loop of one simulate_rps batch (src/main.rs:690-704):
a joined Ok(result) is folded; a join error is logged and additionally
executes `global_stats.failed += 1`. -/
def processRpsBatch (results : List (Option RequestResult)) (s : TestStats) : TestStats :=
  results.foldl
    (fun acc r =>
      match r with
      | some request_result => acc.add_result request_result
      | Option.none => { acc with failed := acc.failed + 1 })
    s

/-- One stats-affecting event of a run: folding a joined outcome
(any mode), a burst/multi join error (logged only, src/main.rs:611-613 and
src/main.rs:853-855), or an rps join error (src/main.rs:699-702). -/
inductive RunStep where
  | fold (result : RequestResult)
  | joinErrorLogged
  | joinErrorRps

def applyRunStep (s : TestStats) : RunStep → TestStats
  | RunStep.fold r => s.add_result r
  | RunStep.joinErrorLogged => s
  | RunStep.joinErrorRps => { s with failed := s.failed + 1 }

/-- Stats reached from TestStats::new after a sequence of run events. -/
def runSteps (steps : List RunStep) : TestStats :=
  steps.foldl applyRunStep TestStats.new

def isRpsJoinError : RunStep → Bool
  | RunStep.joinErrorRps => true
  | _ => false

theorem add_result_total_requests (s : TestStats) (r : RequestResult) :
    (s.add_result r).total_requests = s.total_requests + 1 := by
  rw [TestStats.add_result]
  cases hs : r.success <;> cases hc : r.status_code <;>
    simp only [] <;> split_ifs <;> rfl

theorem add_result_successful (s : TestStats) (r : RequestResult) :
    (s.add_result r).successful = s.successful + (if r.success then 1 else 0) := by
  rw [TestStats.add_result]
  cases hs : r.success <;> cases hc : r.status_code <;>
    simp only [] <;> split_ifs <;> rfl

theorem add_result_failed (s : TestStats) (r : RequestResult) :
    (s.add_result r).failed = s.failed + (if r.success then 0 else 1) := by
  rw [TestStats.add_result]
  cases hs : r.success <;> cases hc : r.status_code <;>
    simp only [] <;> split_ifs <;> rfl

theorem add_result_min_duration (s : TestStats) (r : RequestResult) :
    (s.add_result r).min_duration
      = if r.success then
          (if r.duration < s.min_duration then r.duration else s.min_duration)
        else s.min_duration := by
  rw [TestStats.add_result]
  cases hs : r.success <;> cases hc : r.status_code <;>
    simp only [] <;> split_ifs <;> rfl

theorem add_result_max_duration (s : TestStats) (r : RequestResult) :
    (s.add_result r).max_duration
      = if r.success then
          (if r.duration > s.max_duration then r.duration else s.max_duration)
        else s.max_duration := by
  rw [TestStats.add_result]
  cases hs : r.success <;> cases hc : r.status_code <;>
    simp only [] <;> split_ifs <;> rfl

theorem add_result_total_duration (s : TestStats) (r : RequestResult) :
    (s.add_result r).total_duration
      = s.total_duration + (if r.success then r.duration else 0) := by
  rw [TestStats.add_result]
  cases hs : r.success <;> cases hc : r.status_code <;>
    simp only [] <;> split_ifs <;> rfl

theorem add_result_avg_duration (s : TestStats) (r : RequestResult) :
    (s.add_result r).avg_duration = s.avg_duration := by
  rw [TestStats.add_result]
  cases hs : r.success <;> cases hc : r.status_code <;>
    simp only [] <;> split_ifs <;> rfl

theorem add_result_status_codes (s : TestStats) (r : RequestResult) (c : Nat) :
    (s.add_result r).status_codes c
      = s.status_codes c
        + (if r.success ∧ r.status_code = some c then 1 else 0) := by
  rw [TestStats.add_result]
  cases hs : r.success <;> cases hc : r.status_code <;>
    simp only [] <;> split_ifs <;> simp_all <;> omega

theorem foldResults_cons (r : RequestResult) (rs : List RequestResult) (s : TestStats) :
    foldResults (r :: rs) s = foldResults rs (s.add_result r) := rfl

theorem add_result_failed_shift (s : TestStats) (k : Nat) (r : RequestResult) :
    TestStats.add_result { s with failed := s.failed + k } r
      = { TestStats.add_result s r with
          failed := (TestStats.add_result s r).failed + k } := by
  obtain ⟨t0, su, fl, mi, ma, td, av, sc⟩ := s
  obtain ⟨uid, succ, dur, stc, err, url⟩ := r
  rw [TestStats.add_result, TestStats.add_result]
  cases succ <;> cases stc <;> simp only [] <;> split_ifs <;>
    simp_all [TestStats.ext_iff] <;> omega

theorem processRpsBatch_failed_shift (results : List (Option RequestResult)) :
    ∀ (s : TestStats) (k : Nat),
      processRpsBatch results { s with failed := s.failed + k }
        = { processRpsBatch results s with
            failed := (processRpsBatch results s).failed + k } := by
  induction results with
  | nil => intro s k; rfl
  | cons r rest ih =>
    intro s k
    cases r with
    | some rr =>
      show processRpsBatch rest (TestStats.add_result { s with failed := s.failed + k } rr)
        = _
      rw [add_result_failed_shift, ih]
      rfl
    | none =>
      show processRpsBatch rest { s with failed := s.failed + k + 1 } = _
      have e : s.failed + k + 1 = s.failed + 1 + k := by omega
      rw [e]
      have := ih { s with failed := s.failed + 1 } k
      simp only [] at this
      rw [this]
      rfl

/-- C3 counterexample: in RPS mode a failed task join does change a Stats
field — it increments `failed` (src/main.rs:699-702), so the batch stats
are not the fold of exactly the successfully joined outcomes. -/
theorem C3_counterexample_rps_failed_field :
    processRpsBatch [Option.none] TestStats.new
        ≠ foldResults (([Option.none] : List (Option RequestResult)).filterMap id)
            TestStats.new
    ∧ (processRpsBatch [Option.none] TestStats.new).failed = TestStats.new.failed + 1 := by
  constructor
  · intro h
    have : (processRpsBatch [Option.none] TestStats.new).failed
        = (foldResults (([Option.none] : List (Option RequestResult)).filterMap id)
            TestStats.new).failed := by rw [h]
    simp [processRpsBatch, foldResults, TestStats.new] at this
  · rfl

/-- C3 (amended): a task-level join failure is logged and leaves the stats
untouched in burst and multi-URL mode (their batch stats are the fold of
exactly the successfully joined outcomes), while in RPS mode it increments
only the `failed` counter, leaving every other Stats field equal to the fold
of the joined outcomes; in no mode does it abort the run. -/
theorem C3_task_failure_handling (results : List (Option RequestResult)) (s : TestStats) :
    processBurstResults results s = foldResults (results.filterMap id) s
    ∧ (processRpsBatch results s).failed
        = (foldResults (results.filterMap id) s).failed
          + results.countP (fun r => r.isNone)
    ∧ (processRpsBatch results s).total_requests
        = (foldResults (results.filterMap id) s).total_requests
    ∧ (processRpsBatch results s).successful
        = (foldResults (results.filterMap id) s).successful
    ∧ (processRpsBatch results s).min_duration
        = (foldResults (results.filterMap id) s).min_duration
    ∧ (processRpsBatch results s).max_duration
        = (foldResults (results.filterMap id) s).max_duration
    ∧ (processRpsBatch results s).total_duration
        = (foldResults (results.filterMap id) s).total_duration
    ∧ (processRpsBatch results s).avg_duration
        = (foldResults (results.filterMap id) s).avg_duration
    ∧ ∀ c, (processRpsBatch results s).status_codes c
        = (foldResults (results.filterMap id) s).status_codes c := by
  have hburst : ∀ (rs : List (Option RequestResult)) (t : TestStats),
      processBurstResults rs t = foldResults (rs.filterMap id) t := by
    intro rs
    induction rs with
    | nil => intro t; rfl
    | cons r rest ih =>
      intro t
      cases r with
      | some rr => exact ih (t.add_result rr)
      | none => exact ih t
  have hrps : ∀ (rs : List (Option RequestResult)) (t : TestStats),
      processRpsBatch rs t
        = { foldResults (rs.filterMap id) t with
            failed := (foldResults (rs.filterMap id) t).failed
              + rs.countP (fun r => r.isNone) } := by
    intro rs
    induction rs with
    | nil =>
      intro t
      simp [processRpsBatch, foldResults]
    | cons r rest ih =>
      intro t
      cases r with
      | some rr =>
        show processRpsBatch rest (t.add_result rr) = _
        rw [ih]
        simp [List.countP_cons, foldResults_cons]
      | none =>
        show processRpsBatch rest { t with failed := t.failed + 1 } = _
        rw [processRpsBatch_failed_shift, ih]
        simp only [List.filterMap_cons, List.countP_cons, Option.isNone_none,
          if_true, Nat.add_assoc, id]
  refine ⟨hburst results s, ?_⟩
  rw [hrps results s]
  simp

theorem runSteps_aux (steps : List RunStep) :
    ∀ s : TestStats,
      (List.foldl applyRunStep s steps).successful
          + (List.foldl applyRunStep s steps).failed
          + s.total_requests
        = (List.foldl applyRunStep s steps).total_requests
          + s.successful + s.failed + steps.countP isRpsJoinError := by
  induction steps with
  | nil => intro s; simp; omega
  | cons st rest ih =>
    intro s
    have hstep := ih (applyRunStep s st)
    cases st with
    | fold r =>
      have h1 := add_result_total_requests s r
      have h2 := add_result_successful s r
      have h3 := add_result_failed s r
      simp only [List.foldl_cons, applyRunStep] at hstep ⊢
      simp only [List.countP_cons, isRpsJoinError]
      cases hr : r.success <;> simp [hr] at h2 h3 <;> simp <;> omega
    | joinErrorLogged =>
      simp only [List.foldl_cons, applyRunStep] at hstep ⊢
      simp only [List.countP_cons, isRpsJoinError]
      simp
      omega
    | joinErrorRps =>
      simp only [List.foldl_cons, applyRunStep] at hstep ⊢
      simp only [List.countP_cons, isRpsJoinError]
      simp
      omega

theorem runSteps_min_le_max (steps : List RunStep) :
    ∀ s : TestStats,
      (0 < s.successful → s.min_duration ≤ s.max_duration) →
      (0 < (List.foldl applyRunStep s steps).successful →
        (List.foldl applyRunStep s steps).min_duration
          ≤ (List.foldl applyRunStep s steps).max_duration) := by
  induction steps with
  | nil => intro s h; exact h
  | cons st rest ih =>
    intro s h
    refine ih (applyRunStep s st) ?_
    cases st with
    | fold r =>
      intro hpos
      simp only [applyRunStep] at hpos ⊢
      rw [add_result_min_duration, add_result_max_duration]
      cases hr : r.success with
      | false =>
        rw [add_result_successful] at hpos
        simp [hr] at hpos ⊢
        exact h hpos
      | true =>
        simp only [hr, if_true]
        split_ifs <;> omega
    | joinErrorLogged =>
      simpa [applyRunStep] using h
    | joinErrorRps =>
      simpa [applyRunStep] using h

/-- C2 counterexample: after the RPS loop handles one task-level join
failure (src/main.rs:699-702), successful + failed = 1 while
totalRequests = 0, so the claimed invariant fails on a reachable Stats
value. -/
theorem C2_counterexample_rps_join_error :
    (runSteps [RunStep.joinErrorRps]).successful
        + (runSteps [RunStep.joinErrorRps]).failed
      ≠ (runSteps [RunStep.joinErrorRps]).total_requests := by
  decide

/-- C2 (amended): for every reachable Stats value (initial state, then any
sequence of fold steps over arbitrary outcomes plus the run loops' handling
of task-level failures), successful + failed = totalRequests + (number of
RPS-mode join failures handled); in particular the claimed equality
successful + failed = totalRequests holds whenever no RPS join failure
occurred, and minLatency ≤ maxLatency holds whenever successful > 0. -/
theorem C2_stats_invariant (steps : List RunStep) :
    (runSteps steps).successful + (runSteps steps).failed
      = (runSteps steps).total_requests + steps.countP isRpsJoinError
    ∧ (steps.countP isRpsJoinError = 0 →
        (runSteps steps).successful + (runSteps steps).failed
          = (runSteps steps).total_requests)
    ∧ (0 < (runSteps steps).successful →
        (runSteps steps).min_duration ≤ (runSteps steps).max_duration) := by
  have h1 := runSteps_aux steps TestStats.new
  have h2 := runSteps_min_le_max steps TestStats.new (by intro h; simp [TestStats.new] at h)
  simp only [TestStats.new] at h1
  refine ⟨by simpa [runSteps] using h1, ?_, by simpa [runSteps] using h2⟩
  intro hz
  have := h1
  rw [hz] at this
  simpa [runSteps] using this

/-- Successful outcome taking 10 ms (10000000 ns) with HTTP 200. -/
def outcomeSuccess10ms : RequestResult :=
  { user_id := 1
    success := true
    duration := 10000000
    status_code := some 200
    error := Option.none
    url := "http://localhost:3000/api/test" }

/-- Successful outcome taking 20 ms with HTTP 200. -/
def outcomeSuccess20ms : RequestResult :=
  { user_id := 2
    success := true
    duration := 20000000
    status_code := some 200
    error := Option.none
    url := "http://localhost:3000/api/test" }

/-- Failed outcome (transport error: no response, no status code). -/
def outcomeFailure : RequestResult :=
  { user_id := 3
    success := false
    duration := 5000000
    status_code := Option.none
    error := some "connection refused"
    url := "http://localhost:3000/api/test" }

theorem C2_stats_invariant_witness :
    (runSteps [RunStep.fold outcomeSuccess10ms]).successful
        + (runSteps [RunStep.fold outcomeSuccess10ms]).failed
      = (runSteps [RunStep.fold outcomeSuccess10ms]).total_requests
        + ([RunStep.fold outcomeSuccess10ms]).countP isRpsJoinError
    ∧ (runSteps [RunStep.fold outcomeSuccess10ms]).min_duration
        ≤ (runSteps [RunStep.fold outcomeSuccess10ms]).max_duration := by
  have h := C2_stats_invariant [RunStep.fold outcomeSuccess10ms]
  exact ⟨h.1, h.2.2 (by decide)⟩

/-- C5: folding an outcome increments totalRequests always; on success it
increments successful, accumulates totalLatency, updates min/max latency
exactly as the source's comparisons do (min starts at the "infinite"
Duration::from_secs(u64::MAX), max at zero, so the first success sets
both), increments the bucket of its status code, and leaves failed alone;
a failed outcome increments only totalRequests and failed, leaving every
latency field and the statusCode buckets unchanged.  Folding
[success(10ms), success(20ms), failure] into a fresh Stats and finalizing
yields total=3, successful=2, failed=1, min=10ms, max=20ms, avg=15ms. -/
theorem C5_add_result_spec (s : TestStats) (r : RequestResult) :
    (s.add_result r).total_requests = s.total_requests + 1
    ∧ (r.success = true →
        (s.add_result r).successful = s.successful + 1
        ∧ (s.add_result r).total_duration = s.total_duration + r.duration
        ∧ (s.add_result r).min_duration
            = (if r.duration < s.min_duration then r.duration else s.min_duration)
        ∧ (s.add_result r).max_duration
            = (if r.duration > s.max_duration then r.duration else s.max_duration)
        ∧ (s.add_result r).failed = s.failed
        ∧ (∀ st, r.status_code = some st →
            ∀ c, (s.add_result r).status_codes c
              = (if c = st then s.status_codes c + 1 else s.status_codes c)))
    ∧ (r.success = false →
        (s.add_result r).failed = s.failed + 1
        ∧ (s.add_result r).successful = s.successful
        ∧ (s.add_result r).min_duration = s.min_duration
        ∧ (s.add_result r).max_duration = s.max_duration
        ∧ (s.add_result r).total_duration = s.total_duration
        ∧ (s.add_result r).avg_duration = s.avg_duration
        ∧ ∀ c, (s.add_result r).status_codes c = s.status_codes c)
    ∧ TestStats.new.min_duration = 18446744073709551615 * 1000000000
    ∧ TestStats.new.max_duration = 0
    ∧ (((foldResults [outcomeSuccess10ms, outcomeSuccess20ms, outcomeFailure]
            TestStats.new).calculate_final).map TestStats.total_requests = some 3
       ∧ ((foldResults [outcomeSuccess10ms, outcomeSuccess20ms, outcomeFailure]
            TestStats.new).calculate_final).map TestStats.successful = some 2
       ∧ ((foldResults [outcomeSuccess10ms, outcomeSuccess20ms, outcomeFailure]
            TestStats.new).calculate_final).map TestStats.failed = some 1
       ∧ ((foldResults [outcomeSuccess10ms, outcomeSuccess20ms, outcomeFailure]
            TestStats.new).calculate_final).map TestStats.min_duration = some 10000000
       ∧ ((foldResults [outcomeSuccess10ms, outcomeSuccess20ms, outcomeFailure]
            TestStats.new).calculate_final).map TestStats.max_duration = some 20000000
       ∧ ((foldResults [outcomeSuccess10ms, outcomeSuccess20ms, outcomeFailure]
            TestStats.new).calculate_final).map TestStats.avg_duration = some 15000000
       ∧ ((foldResults [outcomeSuccess10ms, outcomeSuccess20ms, outcomeFailure]
            TestStats.new).calculate_final).map (fun final => final.status_codes 200)
          = some 2) := by
  refine ⟨add_result_total_requests s r, ?_, ?_, rfl, rfl, ?_⟩
  · intro hs
    refine ⟨?_, ?_, ?_, ?_, ?_, ?_⟩
    · rw [add_result_successful, hs]; rfl
    · rw [add_result_total_duration, hs]; rfl
    · rw [add_result_min_duration, hs]; rfl
    · rw [add_result_max_duration, hs]; rfl
    · rw [add_result_failed, hs]; rfl
    · intro st hst c
      rw [add_result_status_codes, hs, hst]
      by_cases hc : c = st
      · simp [hc]
      · simp [hc]
        omega
  · intro hs
    refine ⟨?_, ?_, ?_, ?_, ?_, ?_, ?_⟩
    · rw [add_result_failed, hs]; rfl
    · rw [add_result_successful, hs]; rfl
    · rw [add_result_min_duration, hs]; rfl
    · rw [add_result_max_duration, hs]; rfl
    · rw [add_result_total_duration, hs]; rfl
    · exact add_result_avg_duration s r
    · intro c
      rw [add_result_status_codes, hs]
      simp
  · refine ⟨by decide, by decide, by decide, by decide, by decide, by decide, by decide⟩

theorem C5_add_result_spec_witness :
    (TestStats.new.add_result outcomeSuccess10ms).total_requests
        = TestStats.new.total_requests + 1
    ∧ (TestStats.new.add_result outcomeSuccess10ms).successful
        = TestStats.new.successful + 1
    ∧ (TestStats.new.add_result outcomeSuccess10ms).status_codes 200
        = (if (200 : Nat) = 200 then TestStats.new.status_codes 200 + 1
           else TestStats.new.status_codes 200)
    ∧ (TestStats.new.add_result outcomeFailure).failed = TestStats.new.failed + 1 := by
  have h := C5_add_result_spec TestStats.new outcomeSuccess10ms
  have hf := C5_add_result_spec TestStats.new outcomeFailure
  exact ⟨h.1, (h.2.1 (by decide)).1,
    (h.2.1 (by decide)).2.2.2.2.2 200 (by decide) 200, (hf.2.2.1 (by decide)).1⟩

/-- Stats with successful one past the u32 boundary: the truncated
divisor is 1. -/
def statsPastU32 : TestStats :=
  { TestStats.new with successful := 4294967297, total_duration := 4294967297 }

/-- Stats with successful exactly at the u32 boundary: the truncated
divisor is 0 and the Rust division panics. -/
def statsAtU32 : TestStats :=
  { TestStats.new with successful := 4294967296, total_duration := 100 }

/-- C9 counterexample: calculate_final divides by `successful as u32`
(src/main.rs:377), a truncating cast, so for successful = 2^32 + 1 the
divisor is 1 and avgLatency differs from totalLatency / successful; and
for successful = 2^32 the divisor truncates to 0 and the Duration / u32
division panics instead of producing totalLatency / successful. -/
theorem C9_counterexample_u32_cast :
    0 < statsPastU32.successful
    ∧ statsPastU32.calculate_final.map TestStats.avg_duration
        ≠ some (statsPastU32.total_duration / statsPastU32.successful)
    ∧ 0 < statsAtU32.successful
    ∧ statsAtU32.calculate_final = Option.none := by
  refine ⟨by decide, by decide, by decide, rfl⟩

/-- C9 (amended): calculate_final sets
avgLatency = totalLatency / (successful mod 2^32) when successful > 0 and
the u32-truncated divisor successful mod 2^32 is non-zero — the source
casts the usize count to u32, so this equals totalLatency / successful
exactly when successful < 2^32; when successful is a positive multiple of
2^32 the truncated divisor is zero and the division panics; when
successful = 0 it returns the stats unchanged (avgLatency zero for any
Stats reached by folds from a fresh accumulator); and it is idempotent
where defined: whenever finalize returns a result, finalizing that result
again returns it unchanged. -/
theorem C9_calculate_final_spec (s : TestStats) :
    (0 < s.successful → s.successful % 4294967296 ≠ 0 →
        s.calculate_final
          = some { s with
              avg_duration := s.total_duration / (s.successful % 4294967296) })
    ∧ (0 < s.successful → s.successful < 4294967296 →
        s.calculate_final.map TestStats.avg_duration
          = some (s.total_duration / s.successful))
    ∧ (0 < s.successful → s.successful % 4294967296 = 0 →
        s.calculate_final = Option.none)
    ∧ (s.successful = 0 → s.calculate_final = some s)
    ∧ (∀ t, s.calculate_final = some t → t.calculate_final = some t)
    ∧ (∀ results, (foldResults results TestStats.new).avg_duration = 0)
    ∧ (∀ results, (foldResults results TestStats.new).successful = 0 →
        ((foldResults results TestStats.new).calculate_final).map TestStats.avg_duration
          = some 0) := by
  have havg : ∀ results, (foldResults results TestStats.new).avg_duration = 0 := by
    have hgen : ∀ (results : List RequestResult) (t : TestStats),
        (foldResults results t).avg_duration = t.avg_duration := by
      intro results
      induction results with
      | nil => intro t; rfl
      | cons r rest ih =>
        intro t
        rw [foldResults_cons, ih, add_result_avg_duration]
    intro results
    rw [hgen results TestStats.new]
    rfl
  refine ⟨?_, ?_, ?_, ?_, ?_, havg, ?_⟩
  · intro hpos hnz
    rw [TestStats.calculate_final, if_pos hpos, if_neg hnz]
  · intro hpos hlt
    have hnz : s.successful % 4294967296 ≠ 0 := by
      rw [Nat.mod_eq_of_lt hlt]
      omega
    rw [TestStats.calculate_final, if_pos hpos, if_neg hnz, Nat.mod_eq_of_lt hlt]
    rfl
  · intro hpos hz
    rw [TestStats.calculate_final, if_pos hpos, if_pos hz]
  · intro hz
    rw [TestStats.calculate_final, if_neg (by omega)]
  · intro t ht
    rw [TestStats.calculate_final] at ht
    by_cases hpos : s.successful > 0
    · rw [if_pos hpos] at ht
      by_cases hz : s.successful % 4294967296 = 0
      · rw [if_pos hz] at ht
        exact Option.noConfusion ht
      · rw [if_neg hz] at ht
        have hts := Option.some.inj ht
        rw [← hts]
        simp [TestStats.calculate_final, hpos, hz]
    · rw [if_neg hpos] at ht
      have hts := Option.some.inj ht
      rw [← hts]
      simp [TestStats.calculate_final, hpos]
  · intro results hz
    rw [TestStats.calculate_final, if_neg (by omega)]
    simp [havg results]

theorem C9_calculate_final_spec_witness :
    ((foldResults [outcomeSuccess10ms, outcomeSuccess20ms] TestStats.new).calculate_final).map
        TestStats.avg_duration
      = some ((foldResults [outcomeSuccess10ms, outcomeSuccess20ms] TestStats.new).total_duration
          / (foldResults [outcomeSuccess10ms, outcomeSuccess20ms] TestStats.new).successful)
    ∧ statsAtU32.calculate_final = Option.none
    ∧ TestStats.new.calculate_final = some TestStats.new
    ∧ (((foldResults [] TestStats.new).calculate_final).map TestStats.avg_duration = some 0) := by
  have h := C9_calculate_final_spec (foldResults [outcomeSuccess10ms, outcomeSuccess20ms]
    TestStats.new)
  have hb := C9_calculate_final_spec statsAtU32
  have h0 := C9_calculate_final_spec TestStats.new
  exact ⟨h.2.1 (by decide) (by decide), hb.2.2.1 (by decide) (by decide),
    h0.2.2.2.1 (by decide), h0.2.2.2.2.2.2 [] (by decide)⟩

/-! ### Dispatch engine: simulate_rps scheduling (src/main.rs:659-719)

The outer loop runs one iteration per second of the configured duration;
each iteration computes `batch_start_user = total_requests + 1`, spawns
`rps` tasks with `user_id = batch_start_user + i` for `i in 0..rps`
(incrementing `total_requests` per task), and after the batch sleeps the
remainder of the one-second tick. -/

/-- User ids issued per tick by simulate_rps (src/main.rs:659-681);
`total` is the running `total_requests` counter at the start of the
tick. -/
def rpsBatchesAux (rps : Nat) : Nat → Nat → List (List Nat)
  | 0, _ => []
  | d + 1, total =>
    ((List.range rps).map (fun i => total + 1 + i)) :: rpsBatchesAux rps d (total + rps)

/-- The full per-tick user-id schedule of `simulate_rps rps duration`
(ticks in order, `total_requests` starting at 0). -/
def rpsUserIds (rps duration : Nat) : List (List Nat) :=
  rpsBatchesAux rps duration 0

/-- Embeds the tick pacing of simulate_rps (src/main.rs:713-718): after a
batch that took `elapsed` nanoseconds, sleep `1s - elapsed` when
`elapsed < 1s`, else do not sleep. -/
def tickSleepNanos (elapsed : Nat) : Nat :=
  if elapsed < 1000000000 then 1000000000 - elapsed else 0

theorem rpsBatchesAux_join (rps : Nat) :
    ∀ (d total : Nat),
      (rpsBatchesAux rps d total).flatten = List.range' (total + 1) (rps * d) := by
  intro d
  induction d with
  | zero => intro total; simp [rpsBatchesAux]
  | succ d ih =>
    intro total
    rw [rpsBatchesAux, List.flatten_cons, ih]
    have hmap : (List.range rps).map (fun i => total + 1 + i) = List.range' (total + 1) rps := by
      rw [List.range'_eq_map_range]
    rw [hmap]
    have happ : List.range' (total + 1) rps ++ List.range' (total + 1 + rps) (rps * d)
        = List.range' (total + 1) (rps + rps * d) := by
      simpa [Nat.add_comm] using List.range'_append (total + 1) rps (rps * d) 1
    rw [show total + rps + 1 = total + 1 + rps by omega, happ, Nat.mul_succ]
    rw [show rps * d + rps = rps + rps * d by omega]

theorem rpsBatchesAux_length (rps : Nat) :
    ∀ (d total : Nat), (rpsBatchesAux rps d total).length = d := by
  intro d
  induction d with
  | zero => intro total; rfl
  | succ d ih =>
    intro total
    rw [rpsBatchesAux, List.length_cons, ih]

theorem rpsBatchesAux_get? (rps : Nat) :
    ∀ (d total t : Nat), t < d →
      (rpsBatchesAux rps d total).get? t = some (List.range' (total + t * rps + 1) rps) := by
  intro d
  induction d with
  | zero => intro total t ht; omega
  | succ d ih =>
    intro total t ht
    cases t with
    | zero =>
      rw [rpsBatchesAux]
      simp [List.range'_eq_map_range]
    | succ t' =>
      rw [rpsBatchesAux]
      simp only [List.get?_cons_succ]
      rw [ih (total + rps) t' (by omega)]
      congr 2
      ring

/-- C6: in SustainedRPS mode with rate rps over d one-second ticks,
exactly rps × d requests are issued in total, the flattened userIds are
the strictly increasing sequence 1..rps·d, tick t (0-based; tick t+1 in
the spec's 1-based numbering) issues exactly the rps userIds
t·rps+1 .. (t+1)·rps, and whenever a batch finishes in under one second
the engine sleeps exactly up to the tick boundary, so the tick spans at
least one second. -/
theorem C6_rps_schedule (rps duration : Nat) :
    (rpsUserIds rps duration).flatten.length = rps * duration
    ∧ (rpsUserIds rps duration).flatten = List.range' 1 (rps * duration)
    ∧ (rpsUserIds rps duration).length = duration
    ∧ (∀ t, t < duration →
        (rpsUserIds rps duration).get? t = some (List.range' (t * rps + 1) rps))
    ∧ (∀ elapsed, elapsed < 1000000000 →
        elapsed + tickSleepNanos elapsed = 1000000000) := by
  have hjoin : (rpsUserIds rps duration).flatten = List.range' 1 (rps * duration) := by
    have h := rpsBatchesAux_join rps duration 0
    simpa [rpsUserIds] using h
  refine ⟨?_, hjoin, rpsBatchesAux_length rps duration 0, ?_, ?_⟩
  · rw [hjoin, List.length_range']
  · intro t ht
    have h := rpsBatchesAux_get? rps duration 0 t ht
    simpa [rpsUserIds] using h
  · intro elapsed h
    rw [tickSleepNanos, if_pos h]
    omega

theorem C6_rps_schedule_witness :
    (rpsUserIds 10 2).flatten.length = 10 * 2
    ∧ (rpsUserIds 10 2).flatten = List.range' 1 (10 * 2)
    ∧ (rpsUserIds 10 2).get? 0 = some (List.range' 1 10)
    ∧ (rpsUserIds 10 2).get? 1 = some (List.range' 11 10)
    ∧ 400000000 + tickSleepNanos 400000000 = 1000000000 := by
  have h := C6_rps_schedule 10 2
  refine ⟨h.1, h.2.1, ?_, ?_, h.2.2.2.2 400000000 (by decide)⟩
  · simpa using h.2.2.2.1 0 (by decide)
  · simpa using h.2.2.2.1 1 (by decide)

/-! ### Body codec: parse_body (src/main.rs:114-156) and
prepare_dynamic_body (src/main.rs:503-537)

`parse_body` probes the raw body string as JSON (serde_json), then as
`&`-separated form data, then as base64 (base64::general_purpose::STANDARD),
falling back to raw text.  The three probes are embedded below:

* the JSON probe is a recursive-descent parser of the JSON grammar as
  serde_json accepts it for `Value` (strict: empty input, trailing input,
  leading zeros, lone minus signs, unterminated literals, lone surrogate
  escapes are all rejected; objects become key-sorted maps with
  last-duplicate-wins, mirroring serde_json's BTreeMap-backed Map).
  Numbers keep their source lexeme, which serde_json reprints verbatim for
  the in-range integer literals exercised here (float normalization is not
  modelled);
* the form probe mirrors split('&') / splitn(2, '=') / HashMap::insert,
  with the HashMap modelled as an insertion-ordered key-unique association
  list;
* the base64 probe mirrors the STANDARD engine: canonical padding required
  (so the total length is a multiple of four), no whitespace, and non-zero
  trailing bits rejected.

Rust's str::trim / char::is_whitespace trim Unicode whitespace; Lean's
Char.isWhitespace covers the ASCII subset, which coincides on the ASCII
bodies considered here. -/

inductive Json where
  | null
  | bool (b : Bool)
  | num (lexeme : String)
  | str (s : String)
  | arr (elems : List Json)
  | obj (members : List (String × Json))

/-- Whitespace accepted by the JSON grammar (serde_json): space, tab,
newline, carriage return. -/
def isJsonWs (c : Char) : Bool :=
  c == ' ' || c == '\t' || c == '\n' || c == '\r'

def skipWs : List Char → List Char
  | [] => []
  | c :: cs => if isJsonWs c then skipWs cs else c :: cs

def hexVal (c : Char) : Option Nat :=
  if '0' ≤ c ∧ c ≤ '9' then some (c.toNat - 48)
  else if 'a' ≤ c ∧ c ≤ 'f' then some (c.toNat - 97 + 10)
  else if 'A' ≤ c ∧ c ≤ 'F' then some (c.toNat - 65 + 10)
  else Option.none

def parseHex4 : List Char → Option (Nat × List Char)
  | a :: b :: c :: d :: rest =>
    match hexVal a, hexVal b, hexVal c, hexVal d with
    | some x, some y, some z, some w => some (((x * 16 + y) * 16 + z) * 16 + w, rest)
    | _, _, _, _ => Option.none
  | _ => Option.none

/-- Body of a JSON string literal after the opening quote: returns the
decoded characters and the input after the closing quote.  Escape handling
follows serde_json: the eight short escapes, \uXXXX with surrogate-pair
combination, rejection of lone surrogates and of unescaped control
characters. -/
def parseJStringBody : Nat → List Char → Option (List Char × List Char)
  | 0, _ => Option.none
  | _, [] => Option.none
  | fuel + 1, c :: cs =>
    if c = '"' then some ([], cs)
    else if c = '\\' then
      match cs with
      | [] => Option.none
      | e :: cs1 =>
        if e = 'u' then
          match parseHex4 cs1 with
          | some (n, cs2) =>
            if 55296 ≤ n ∧ n ≤ 56319 then
              -- high surrogate: a low surrogate escape must follow
              match cs2 with
              | '\\' :: 'u' :: cs3 =>
                match parseHex4 cs3 with
                | some (m, cs4) =>
                  if 56320 ≤ m ∧ m ≤ 57343 then
                    match parseJStringBody fuel cs4 with
                    | some (content, rest) =>
                      some (Char.ofNat (65536 + (n - 55296) * 1024 + (m - 56320)) :: content,
                        rest)
                    | Option.none => Option.none
                  else Option.none
                | Option.none => Option.none
              | _ => Option.none
            else if 56320 ≤ n ∧ n ≤ 57343 then Option.none
            else
              match parseJStringBody fuel cs2 with
              | some (content, rest) => some (Char.ofNat n :: content, rest)
              | Option.none => Option.none
          | Option.none => Option.none
        else
          match
            (if e = '"' then some '"'
             else if e = '\\' then some '\\'
             else if e = '/' then some '/'
             else if e = 'b' then some (Char.ofNat 8)
             else if e = 'f' then some (Char.ofNat 12)
             else if e = 'n' then some '\n'
             else if e = 'r' then some '\r'
             else if e = 't' then some '\t'
             else Option.none) with
          | some ec =>
            match parseJStringBody fuel cs1 with
            | some (content, rest) => some (ec :: content, rest)
            | Option.none => Option.none
          | Option.none => Option.none
    else if c.toNat < 32 then Option.none
    else
      match parseJStringBody fuel cs with
      | some (content, rest) => some (c :: content, rest)
      | Option.none => Option.none

def takeDigits (cs : List Char) : List Char × List Char :=
  (cs.takeWhile (fun c => c.isDigit), cs.dropWhile (fun c => c.isDigit))

/-- Integer part of a JSON number: a single 0, or a nonzero digit followed
by digits (leading zeros rejected, as serde_json does). -/
def parseIntPart : List Char → Option (List Char × List Char)
  | [] => Option.none
  | c :: cs =>
    if c = '0' then some (['0'], cs)
    else if c.isDigit then
      let (ds, rest) := takeDigits cs
      some (c :: ds, rest)
    else Option.none

def parseFracPart (cs : List Char) : Option (List Char × List Char) :=
  match cs with
  | '.' :: cs1 =>
    let (ds, rest) := takeDigits cs1
    if ds.isEmpty then Option.none else some ('.' :: ds, rest)
  | _ => some ([], cs)

def parseExpPart (cs : List Char) : Option (List Char × List Char) :=
  match cs with
  | c :: cs1 =>
    if c = 'e' ∨ c = 'E' then
      let (sign, cs2) :=
        match cs1 with
        | '+' :: r => (['+'], r)
        | '-' :: r => (['-'], r)
        | r => (([] : List Char), r)
      let (ds, rest) := takeDigits cs2
      if ds.isEmpty then Option.none else some (c :: (sign ++ ds), rest)
    else some ([], c :: cs1)
  | [] => some ([], [])

/-- Lexes one JSON number (optional minus, integer part, optional fraction,
optional exponent), returning its lexeme and the remaining input. -/
def parseNumber (cs : List Char) : Option (List Char × List Char) :=
  let (sign, cs1) :=
    match cs with
    | '-' :: r => (['-'], r)
    | r => (([] : List Char), r)
  match parseIntPart cs1 with
  | some (ip, cs2) =>
    match parseFracPart cs2 with
    | some (fp, cs3) =>
      match parseExpPart cs3 with
      | some (ep, cs4) => some (sign ++ ip ++ fp ++ ep, cs4)
      | Option.none => Option.none
    | Option.none => Option.none
  | Option.none => Option.none

/-- Key-sorted insert with overwrite, mirroring serde_json's
BTreeMap-backed object map (duplicate keys: last wins). -/
def objInsert : List (String × Json) → String → Json → List (String × Json)
  | [], k, v => [(k, v)]
  | (k1, v1) :: rest, k, v =>
    if k < k1 then (k, v) :: (k1, v1) :: rest
    else if k = k1 then (k, v) :: rest
    else (k1, v1) :: objInsert rest k v

mutual

/-- One JSON value, starting at a non-whitespace character.  The fuel
argument dominates the nesting depth; callers pass input length + 1. -/
def parseValue : Nat → List Char → Option (Json × List Char)
  | 0, _ => Option.none
  | fuel + 1, cs =>
    match cs with
    | [] => Option.none
    | c :: rest =>
      if c = Char.ofNat 123 then
        match skipWs rest with
        | c1 :: r1 =>
          if c1 = Char.ofNat 125 then some (Json.obj [], r1)
          else parseMembers fuel (c1 :: r1) []
        | [] => Option.none
      else if c = '[' then
        match skipWs rest with
        | c1 :: r1 =>
          if c1 = ']' then some (Json.arr [], r1)
          else parseElems fuel (c1 :: r1) []
        | [] => Option.none
      else if c = '"' then
        match parseJStringBody fuel rest with
        | some (content, r) => some (Json.str (String.mk content), r)
        | Option.none => Option.none
      else if c = 't' then
        match rest with
        | 'r' :: 'u' :: 'e' :: r => some (Json.bool true, r)
        | _ => Option.none
      else if c = 'f' then
        match rest with
        | 'a' :: 'l' :: 's' :: 'e' :: r => some (Json.bool false, r)
        | _ => Option.none
      else if c = 'n' then
        match rest with
        | 'u' :: 'l' :: 'l' :: r => some (Json.null, r)
        | _ => Option.none
      else if c = '-' ∨ c.isDigit then
        match parseNumber cs with
        | some (lexeme, r) => some (Json.num (String.mk lexeme), r)
        | Option.none => Option.none
      else Option.none

/-- Non-empty array tail: element, then `,` element ... `]`. -/
def parseElems : Nat → List Char → List Json → Option (Json × List Char)
  | 0, _, _ => Option.none
  | fuel + 1, cs, acc =>
    match parseValue fuel cs with
    | some (v, r) =>
      match skipWs r with
      | c :: r2 =>
        if c = ',' then parseElems fuel (skipWs r2) (acc ++ [v])
        else if c = ']' then some (Json.arr (acc ++ [v]), r2)
        else Option.none
      | [] => Option.none
    | Option.none => Option.none

/-- Non-empty object tail: "key" : value, then `,` pair ... closing
brace. -/
def parseMembers : Nat → List Char → List (String × Json) → Option (Json × List Char)
  | 0, _, _ => Option.none
  | fuel + 1, cs, acc =>
    match cs with
    | '"' :: r =>
      match parseJStringBody fuel r with
      | some (key, r1) =>
        match skipWs r1 with
        | ':' :: r2 =>
          match parseValue fuel (skipWs r2) with
          | some (v, r3) =>
            let acc2 := objInsert acc (String.mk key) v
            match skipWs r3 with
            | c :: r4 =>
              if c = ',' then parseMembers fuel (skipWs r4) acc2
              else if c = Char.ofNat 125 then some (Json.obj acc2, r4)
              else Option.none
            | [] => Option.none
          | Option.none => Option.none
        | _ => Option.none
      | Option.none => Option.none
    | _ => Option.none

end

/-- Embeds `serde_json::from_str::<Value>` (src/main.rs:131): leading and
trailing whitespace allowed around exactly one JSON value. -/
def jsonParse (s : String) : Option Json :=
  match parseValue (s.data.length + 1) (skipWs s.data) with
  | some (v, rest) => if (skipWs rest).isEmpty then some v else Option.none
  | Option.none => Option.none

def hexDigitChar (n : Nat) : Char :=
  if n < 10 then Char.ofNat (48 + n) else Char.ofNat (97 + n - 10)

/-- Escaping of one character inside a serialized JSON string, as
serde_json emits it: quote, backslash, the shorthand control escapes, then
\u00XX for remaining control characters; everything else verbatim. -/
def escapeJChar (c : Char) : List Char :=
  if c = '"' then ['\\', '"']
  else if c = '\\' then ['\\', '\\']
  else if c = Char.ofNat 8 then ['\\', 'b']
  else if c = Char.ofNat 12 then ['\\', 'f']
  else if c = '\n' then ['\\', 'n']
  else if c = '\r' then ['\\', 'r']
  else if c = '\t' then ['\\', 't']
  else if c.toNat < 32 then
    ['\\', 'u', '0', '0', hexDigitChar (c.toNat / 16), hexDigitChar (c.toNat % 16)]
  else [c]

def renderJString (s : String) : String :=
  String.mk ('"' :: s.data.foldr (fun c acc => escapeJChar c ++ acc) ['"'])

mutual

/-- Embeds `Value::to_string()` (src/main.rs:513): compact serialization,
object members in key order (the map is key-sorted by construction). -/
def Json.render : Json → String
  | Json.null => "null"
  | Json.bool true => "true"
  | Json.bool false => "false"
  | Json.num lexeme => lexeme
  | Json.str s => renderJString s
  | Json.arr elems => "[" ++ Json.renderElems elems ++ "]"
  | Json.obj members => "\x7b" ++ Json.renderMembers members ++ "\x7d"

def Json.renderElems : List Json → String
  | [] => ""
  | [v] => Json.render v
  | v :: rest => Json.render v ++ "," ++ Json.renderElems rest

def Json.renderMembers : List (String × Json) → String
  | [] => ""
  | [(k, v)] => renderJString k ++ ":" ++ Json.render v
  | (k, v) :: rest =>
    renderJString k ++ ":" ++ Json.render v ++ "," ++ Json.renderMembers rest

end

/-- Alphabet of base64::general_purpose::STANDARD. -/
def b64Index (c : Char) : Option Nat :=
  if 'A' ≤ c ∧ c ≤ 'Z' then some (c.toNat - 65)
  else if 'a' ≤ c ∧ c ≤ 'z' then some (c.toNat - 97 + 26)
  else if '0' ≤ c ∧ c ≤ '9' then some (c.toNat - 48 + 52)
  else if c = '+' then some 62
  else if c = '/' then some 63
  else Option.none

/-- Embeds `general_purpose::STANDARD.decode` (src/main.rs:150): processes
four-character groups; canonical padding required, `=` only at the end of
the final group, non-zero trailing bits rejected, any length not a
multiple of four rejected. -/
def b64DecodeGroups : List Char → Option (List Nat)
  | [] => some []
  | a :: b :: c :: d :: rest =>
    match b64Index a, b64Index b with
    | some x, some y =>
      if c = '=' then
        if d = '=' ∧ rest = [] ∧ y % 16 = 0 then some [x * 4 + y / 16]
        else Option.none
      else
        match b64Index c with
        | some z =>
          if d = '=' then
            if rest = [] ∧ z % 4 = 0 then some [x * 4 + y / 16, (y % 16) * 16 + z / 4]
            else Option.none
          else
            match b64Index d with
            | some w =>
              match b64DecodeGroups rest with
              | some tail =>
                some ((x * 4 + y / 16) :: ((y % 16) * 16 + z / 4) :: ((z % 4) * 64 + w) :: tail)
              | Option.none => Option.none
            | Option.none => Option.none
        | Option.none => Option.none
    | _, _ => Option.none
  | _ => Option.none

def base64Decode (s : String) : Option (List Nat) :=
  b64DecodeGroups s.data

/-- Embeds BodyType (src/main.rs:115-122). -/
inductive BodyType where
  | json (value : Json)
  | text (s : String)
  | form (data : List (String × String))
  | binary (bytes : List Nat)
  | none

/-- Rust char::is_whitespace, restricted to the ASCII whitespace that
Lean's Char.isWhitespace recognizes (they agree on ASCII input). -/
def isRustWhitespace (c : Char) : Bool := c.isWhitespace

/-- Embeds str::trim (src/main.rs:126). -/
def rustTrim (s : String) : String :=
  String.mk (((s.data.dropWhile isRustWhitespace).reverse.dropWhile isRustWhitespace).reverse)

def strContainsChar (s : String) (c : Char) : Bool := s.data.contains c

def strStartsWithChar (s : String) (c : Char) : Bool :=
  match s.data with
  | [] => false
  | d :: _ => d == c

/-- Embeds str::split('&') (src/main.rs:138). -/
def splitOnChar (sep : Char) : List Char → List (List Char)
  | [] => [[]]
  | c :: cs =>
    if c == sep then [] :: splitOnChar sep cs
    else
      match splitOnChar sep cs with
      | [] => [[c]]
      | g :: gs => (c :: g) :: gs

/-- Embeds str::splitn(2, '=') (src/main.rs:139): `some (before, after)`
splitting at the first `=`, or `Option.none` when the pair has no `=`
(in which case `parts.len() == 2` fails and the pair is skipped). -/
def splitFirstEq : List Char → Option (List Char × List Char)
  | [] => Option.none
  | c :: cs =>
    if c == '=' then some ([], cs)
    else
      match splitFirstEq cs with
      | some (before, after) => some (c :: before, after)
      | Option.none => Option.none

/-- HashMap::insert on the insertion-ordered association-list model:
overwrite in place, append when fresh. -/
def hmInsert (m : List (String × String)) (k v : String) : List (String × String) :=
  if m.any (fun p => p.1 == k) then
    m.map (fun p => if p.1 == k then (k, v) else p)
  else m ++ [(k, v)]

/-- The form-data accumulation loop of parse_body (src/main.rs:137-143). -/
def formPairs (body_str : String) : List (String × String) :=
  (splitOnChar '&' body_str.data).foldl
    (fun form_data pair =>
      match splitFirstEq pair with
      | some (k, v) => hmInsert form_data (String.mk k) (String.mk v)
      | Option.none => form_data)
    []

/-- The form probe of parse_body (src/main.rs:136-147): attempted only
when the body contains `=` and starts with neither a brace nor a bracket;
succeeds when at least one key=value pair parsed. -/
def formAttempt (body_str : String) : Option (List (String × String)) :=
  if strContainsChar body_str '='
      && !(strStartsWithChar body_str (Char.ofNat 123))
      && !(strStartsWithChar body_str '[') then
    let form_data := formPairs body_str
    if form_data.isEmpty then Option.none else some form_data
  else Option.none

/-- Embeds parse_body (src/main.rs:125-156): empty/whitespace-only →
None; else JSON probe; else form probe; else base64 probe; else raw
text.  The Rust signature returns Result, but every path is Ok. -/
def parse_body (body_str : String) : Except String BodyType :=
  if (rustTrim body_str).data.isEmpty then Except.ok BodyType.none
  else
    match jsonParse body_str with
    | some json_value => Except.ok (BodyType.json json_value)
    | Option.none =>
      match formAttempt body_str with
      | some form_data => Except.ok (BodyType.form form_data)
      | Option.none =>
        match base64Decode body_str with
        | some decoded => Except.ok (BodyType.binary decoded)
        | Option.none => Except.ok (BodyType.text body_str)

def userIdPat : String := "\x7b\x7buserId\x7d\x7d"

def timestampPat : String := "\x7b\x7btimestamp\x7d\x7d"

def uuidPat : String := "\x7b\x7buuid\x7d\x7d"

/-- Embeds str::replace(pat, repl): replace every non-overlapping
occurrence, scanning left to right.  The fuel is the input length; each
step consumes at least one character, so it never runs out. -/
def replaceChars (pat repl : List Char) : Nat → List Char → List Char
  | _, [] => []
  | 0, cs => cs
  | fuel + 1, c :: cs =>
    if !pat.isEmpty && pat.isPrefixOf (c :: cs) then
      repl ++ replaceChars pat repl fuel (List.drop pat.length (c :: cs))
    else
      c :: replaceChars pat repl fuel cs

def strReplace (s pat repl : String) : String :=
  String.mk (replaceChars pat.data repl.data s.data.length s.data)

/-- The substitution chain of the Json arm of prepare_dynamic_body
(src/main.rs:513-518): quoted `"placeholder"` for userId replaced by a bare
numeric literal, then bare userId, then timestamp and uuid quoted as string
literals. -/
def substStructured (json_str : String) (user_id : Nat) (timestamp uuid : String) : String :=
  strReplace
    (strReplace
      (strReplace
        (strReplace json_str ("\"" ++ userIdPat ++ "\"") (toString user_id))
        userIdPat (toString user_id))
      timestampPat ("\"" ++ timestamp ++ "\""))
    uuidPat ("\"" ++ uuid ++ "\"")

/-- Embeds prepare_dynamic_body (src/main.rs:503-537).  The Rust function
receives the timestamp and formats it with to_rfc3339(), and generates a
fresh uuid per call; both are passed here as the already-rendered strings
`timestamp` and `uuid`.  Text: all three placeholders replaced.  Json:
serialize, substitute (substStructured), re-parse, degrade to Text when
re-parsing fails.  Form: only userId and timestamp are replaced in the
values (the source has no uuid replacement in this arm).  Binary/None:
returned unchanged (`other => other.clone()`). -/
def prepare_dynamic_body (body : BodyType) (user_id : Nat) (timestamp uuid : String) :
    BodyType :=
  match body with
  | BodyType.text text =>
    BodyType.text
      (strReplace (strReplace (strReplace text userIdPat (toString user_id))
        timestampPat timestamp) uuidPat uuid)
  | BodyType.json json_value =>
    let json_str := Json.render json_value
    let replaced := substStructured json_str user_id timestamp uuid
    match jsonParse replaced with
    | some new_json => BodyType.json new_json
    | Option.none => BodyType.text replaced
  | BodyType.form form_data =>
    BodyType.form
      (form_data.map (fun kv =>
        (kv.1, strReplace (strReplace kv.2 userIdPat (toString user_id))
          timestampPat timestamp)))
  | other => other

/-- C1 counterexample: the body "aGVsbG8=" (the spec's base64 example)
contains `=` and does not start with a brace or bracket, so the form probe
fires first and wins with the single pair aGVsbG8 → "", and the result is
FormEncoded, not Binary. -/
theorem C1_counterexample_base64_example :
    parse_body "aGVsbG8=" = Except.ok (BodyType.form [("aGVsbG8", "")])
    ∧ parse_body "aGVsbG8="
        ≠ Except.ok (BodyType.binary [104, 101, 108, 108, 111]) := by
  constructor
  · rfl
  · intro h
    rw [show parse_body "aGVsbG8=" = Except.ok (BodyType.form [("aGVsbG8", "")]) from rfl]
      at h
    exact BodyType.noConfusion (Except.ok.inj h)

/-- C1 (amended): body classification follows the priority chain
empty/whitespace → Empty, JSON → Structured, then the form probe (`=`
present, no leading brace/bracket, at least one pair), then base64, then
raw text, and never fails.  The spec's examples hold except the base64
one: a padded base64 string like "aGVsbG8=" contains `=` and is captured
by the form probe as FormEncoded {aGVsbG8: ""}; a `=`-free base64 string
such as "aGVsbG9v" (length a multiple of four) is classified Binary. -/
theorem C1_parse_body_classification :
    (∀ s, (rustTrim s).data.isEmpty = true → parse_body s = Except.ok BodyType.none)
    ∧ (∀ s j, (rustTrim s).data.isEmpty = false → jsonParse s = some j →
        parse_body s = Except.ok (BodyType.json j))
    ∧ (∀ s fd, (rustTrim s).data.isEmpty = false → jsonParse s = Option.none →
        formAttempt s = some fd → parse_body s = Except.ok (BodyType.form fd))
    ∧ (∀ s bytes, (rustTrim s).data.isEmpty = false → jsonParse s = Option.none →
        formAttempt s = Option.none → base64Decode s = some bytes →
        parse_body s = Except.ok (BodyType.binary bytes))
    ∧ (∀ s, (rustTrim s).data.isEmpty = false → jsonParse s = Option.none →
        formAttempt s = Option.none → base64Decode s = Option.none →
        parse_body s = Except.ok (BodyType.text s))
    ∧ (∀ s, ∃ b, parse_body s = Except.ok b)
    ∧ parse_body "\x7b\"a\":1\x7d" = Except.ok (BodyType.json (Json.obj [("a", Json.num "1")]))
    ∧ parse_body "a=1&b=2" = Except.ok (BodyType.form [("a", "1"), ("b", "2")])
    ∧ parse_body "aGVsbG8=" = Except.ok (BodyType.form [("aGVsbG8", "")])
    ∧ parse_body "aGVsbG9v" = Except.ok (BodyType.binary [104, 101, 108, 108, 111, 111])
    ∧ parse_body "hello world" = Except.ok (BodyType.text "hello world")
    ∧ parse_body "" = Except.ok BodyType.none := by
  refine ⟨?_, ?_, ?_, ?_, ?_, ?_, rfl, rfl, rfl, rfl, rfl, rfl⟩
  · intro s h1
    simp [parse_body, h1]
  · intro s j h1 hj
    simp [parse_body, h1, hj]
  · intro s fd h1 hj hf
    simp [parse_body, h1, hj, hf]
  · intro s bytes h1 hj hf hb
    simp [parse_body, h1, hj, hf, hb]
  · intro s h1 hj hf hb
    simp [parse_body, h1, hj, hf, hb]
  · intro s
    cases h1 : (rustTrim s).data.isEmpty with
    | true => exact ⟨BodyType.none, by simp [parse_body, h1]⟩
    | false =>
      cases hj : jsonParse s with
      | some j => exact ⟨BodyType.json j, by simp [parse_body, h1, hj]⟩
      | none =>
        cases hf : formAttempt s with
        | some fd => exact ⟨BodyType.form fd, by simp [parse_body, h1, hj, hf]⟩
        | none =>
          cases hb : base64Decode s with
          | some bytes => exact ⟨BodyType.binary bytes, by simp [parse_body, h1, hj, hf, hb]⟩
          | none => exact ⟨BodyType.text s, by simp [parse_body, h1, hj, hf, hb]⟩

theorem C1_parse_body_classification_witness :
    parse_body "true" = Except.ok (BodyType.json (Json.bool true))
    ∧ parse_body "x=y" = Except.ok (BodyType.form [("x", "y")])
    ∧ parse_body "@@" = Except.ok (BodyType.text "@@") := by
  have h := C1_parse_body_classification
  exact ⟨h.2.1 "true" (Json.bool true) rfl rfl,
    h.2.2.1 "x=y" [("x", "y")] rfl rfl rfl,
    h.2.2.2.2.1 "@@" rfl rfl rfl rfl⟩

/-- C4 counterexample: the FormEncoded arm of prepare_dynamic_body only
substitutes userId and timestamp (src/main.rs:525-534) — a form value
consisting of the uuid placeholder is returned verbatim, not replaced as
the claim requires. -/
theorem C4_counterexample_form_uuid :
    prepare_dynamic_body (BodyType.form [("k", uuidPat)]) 7
        "2024-01-01T00:00:00+00:00" "123e4567"
      = BodyType.form [("k", uuidPat)]
    ∧ strReplace uuidPat uuidPat "123e4567" = "123e4567"
    ∧ uuidPat ≠ "123e4567" := by
  exact ⟨rfl, rfl, by decide⟩

/-- C4 (amended): dynamic rendering replaces {{userId}}, {{timestamp}} and
{{uuid}} verbatim within Text; within FormEncoded values it replaces only
{{userId}} and {{timestamp}} ({{uuid}} is left untouched there); for a
Structured payload it serializes, substitutes ({{userId}} as a bare
numeric literal — also when the placeholder occurs quoted — and
{{timestamp}} / {{uuid}} as quoted string literals) and re-parses,
degrading to Text holding the substituted string when re-parsing fails;
for every payload and userId it returns some payload and never fails; and
Text "id=\x7b\x7buserId\x7d\x7d" rendered for userId = 7 yields Text
"id=7". -/
theorem C4_dynamic_body_rendering :
    (∀ text user_id timestamp uuid,
        prepare_dynamic_body (BodyType.text text) user_id timestamp uuid
          = BodyType.text (strReplace (strReplace (strReplace text userIdPat
              (toString user_id)) timestampPat timestamp) uuidPat uuid))
    ∧ (∀ form_data user_id timestamp uuid,
        prepare_dynamic_body (BodyType.form form_data) user_id timestamp uuid
          = BodyType.form (form_data.map (fun kv =>
              (kv.1, strReplace (strReplace kv.2 userIdPat (toString user_id))
                timestampPat timestamp))))
    ∧ (∀ value user_id timestamp uuid,
        (∃ new_json,
            prepare_dynamic_body (BodyType.json value) user_id timestamp uuid
              = BodyType.json new_json)
        ∨ prepare_dynamic_body (BodyType.json value) user_id timestamp uuid
            = BodyType.text (substStructured (Json.render value) user_id timestamp uuid))
    ∧ (∀ body user_id timestamp uuid,
        ∃ rendered, prepare_dynamic_body body user_id timestamp uuid = rendered)
    ∧ prepare_dynamic_body (BodyType.text "id=\x7b\x7buserId\x7d\x7d") 7 "TS" "UUID"
        = BodyType.text "id=7"
    ∧ prepare_dynamic_body (BodyType.json (Json.obj [("id", Json.str userIdPat)])) 7 "TS" "UU"
        = BodyType.json (Json.obj [("id", Json.num "7")]) := by
  refine ⟨fun _ _ _ _ => rfl, fun _ _ _ _ => rfl, ?_, fun b u t v => ⟨_, rfl⟩, rfl, rfl⟩
  intro value user_id timestamp uuid
  cases hj : jsonParse (substStructured (Json.render value) user_id timestamp uuid) with
  | some new_json =>
    exact Or.inl ⟨new_json, by simp [prepare_dynamic_body, hj]⟩
  | none =>
    exact Or.inr (by simp [prepare_dynamic_body, hj])
